import Mathlib

/-!
Verification of the QR-video codec pipeline (`src/base.py`, `src/qr_encoding.py`,
`src/qr_decoding.py`, `src/performance.py`, `src/enums.py`,
`src/qr_configuration.py`) against its natural-language specification.

Modelling conventions:
* Byte strings are `List Nat` with every element `< 256` where it matters.
* Python exceptions are an explicit `Except PyError` layer; `except ValueError`
  corresponds to catching the `valueError` class (Python's `binascii.Error` is a
  `ValueError` subclass and is modelled as such).
* The QR render/detect primitives (`qrcode`/`segno`/`pyzbar`) are external
  collaborators; per the spec (Symbol codec contract and Video Handler
  contract) a rendered frame carries its chunk losslessly and the detector
  returns the concatenation of the symbols in the frame.  A `Frame` therefore
  records the list of symbol payloads it carries.  The capacity check guarding
  the renderer is taken from the source (`_generate_qr_image`).
* The configuration blob codec in the source is `pickle.dumps`/`pickle.loads`
  (Python standard library, external to the repo).  Modelled from the spec: a
  fixed bijective byte encoding of the configuration record, whose only
  contract is `from_bytes (to_bytes c) = some c`.
* Modelled from the spec: `CONFIGURATION_HEADER_LENGTH_BYTES` and
  `BYTE_ORDER_BIG` are imported by `src/base.py` from `src/constants.py` but
  absent there; the spec fixes them as a 4-byte big-endian length.
* Modelled from the spec: `configuration.enable_parallelization` read by
  `generate_qr_images` does not exist on the configuration dataclass; the spec
  names `enable_multiprocessing` as the flag selecting sequential or parallel
  execution, and `qr_decoding.py` uses that name.
* `ProcessPoolExecutor.map` returns results in task-submission order and
  re-raises a worker's exception when the results are iterated; it is modelled
  as an order-preserving effectful map.  The `length`/`tqdm` arguments are
  progress display only and carry no semantics in the model.
-/

set_option maxRecDepth 4096
set_option linter.unusedVariables false

/-- Python exception classes that the pipeline can raise.  The `msg` fields
mirror the messages in the source. -/
inductive PyError where
  | valueError (msg : String)
  | pipelineValidation (msg : String)
  | unpicklingError
  | overflowError
  deriving DecidableEq

/-- A predicate matching Python's `except ValueError` clause in
`VideoEncodingPipeline.run` (`PipelineValidationException` derives from
`Exception`, not `ValueError`; `pickle` errors likewise). -/
def PyError.isValueErr : PyError → Bool
  | .valueError _ => true
  | _ => false

/-- Error correction level for QR codes (`src/enums.py`). -/
inductive QRErrorCorrectionLevel where
  | L | M | Q | H
  deriving DecidableEq

/-- Maximum byte size for the given error correction level
(`QRErrorCorrectionLevel.to_max_bytes` in `src/enums.py`). -/
def QRErrorCorrectionLevel.to_max_bytes : QRErrorCorrectionLevel → Nat
  | .L => 2953
  | .M => 2331
  | .Q => 1663
  | .H => 1273

/-- QR code encoding libraries in use (`src/enums.py`). -/
inductive QREncodingLibrary where
  | SEGNO | QRCODE
  deriving DecidableEq

/-- QR code decoding libraries in use (`src/enums.py`; `OPEN_CV` is commented
out in the source, so `PYZBAR` is the only inhabitant). -/
inductive QRDecodingLibrary where
  | PYZBAR
  deriving DecidableEq

/-- The pipeline configuration: the fields of `EncodingConfiguration`
(`src/base.py`) followed by those of its subclass `QREncodingConfiguration`
(`src/qr_configuration.py`), with the source's dataclass defaults. -/
structure QREncodingConfiguration where
  enable_multiprocessing : Bool := true
  frames_per_second : Nat := 24
  show_decoding_window : Bool := false
  verbose : Bool := false
  chunk_size : Option Nat := none
  max_workers : Option Nat := none
  border : Nat := 40
  box_size : Nat := 10
  error_correction : QRErrorCorrectionLevel := .M
  qr_codes_per_frame : Nat := 1
  qr_encoding_library : QREncodingLibrary := .SEGNO
  qr_decoding_library : QRDecodingLibrary := .PYZBAR
  deriving DecidableEq

/- ----- Configuration blob codec -----
Modelled from the spec: the source serializes the configuration with
`pickle.dumps` / `pickle.loads` (external standard library); the spec only
requires a fixed bijective encoding of the record.  Numbers are encoded in
base 255 (digits < 255) terminated by the byte 255, so arbitrary naturals
round-trip. -/

/-- Little-endian base-255 digits of `n`, computed with explicit fuel so that
the definition is structural (kernel-reducible).  `natDigitsF n n` is exact
because `n` needs at most `n` digits. -/
def natDigitsF : Nat → Nat → List Nat
  | 0, _ => []
  | fuel + 1, n => if n = 0 then [] else n % 255 :: natDigitsF fuel (n / 255)

/-- Base-255 digit string of a natural number. -/
def natDigits (n : Nat) : List Nat := natDigitsF n n

/-- Encoding of a natural number: its base-255 digits, then the terminator 255. -/
def encNat (n : Nat) : List Nat := natDigits n ++ [255]

/-- Parser for `encNat`: reads digits until the terminator and returns the
value with the remaining input. -/
def decNat : List Nat → Option (Nat × List Nat)
  | [] => none
  | d :: rest =>
    if d = 255 then some (0, rest)
    else
      match decNat rest with
      | some (v, r) => some (d + 255 * v, r)
      | none => none

/-- Encoding of a boolean as one byte. -/
def encBool (b : Bool) : List Nat := [if b then 1 else 0]

/-- Parser for `encBool`. -/
def decBool : List Nat → Option (Bool × List Nat)
  | 0 :: rest => some (false, rest)
  | 1 :: rest => some (true, rest)
  | _ => none

/-- Encoding of an optional natural number. -/
def encOptNat : Option Nat → List Nat
  | none => [0]
  | some n => 1 :: encNat n

/-- Parser for `encOptNat`. -/
def decOptNat : List Nat → Option (Option Nat × List Nat)
  | 0 :: rest => some (none, rest)
  | 1 :: rest =>
      match decNat rest with
      | some (v, r) => some (some v, r)
      | none => none
  | _ => none

/-- Encoding of the error-correction level as one byte. -/
def encEC : QRErrorCorrectionLevel → List Nat
  | .L => [0]
  | .M => [1]
  | .Q => [2]
  | .H => [3]

/-- Parser for `encEC`. -/
def decEC : List Nat → Option (QRErrorCorrectionLevel × List Nat)
  | 0 :: rest => some (.L, rest)
  | 1 :: rest => some (.M, rest)
  | 2 :: rest => some (.Q, rest)
  | 3 :: rest => some (.H, rest)
  | _ => none

/-- Encoding of the QR encoding library as one byte. -/
def encEL : QREncodingLibrary → List Nat
  | .SEGNO => [0]
  | .QRCODE => [1]

/-- Parser for `encEL`. -/
def decEL : List Nat → Option (QREncodingLibrary × List Nat)
  | 0 :: rest => some (.SEGNO, rest)
  | 1 :: rest => some (.QRCODE, rest)
  | _ => none

/-- Encoding of the QR decoding library as one byte. -/
def encDL : QRDecodingLibrary → List Nat
  | .PYZBAR => [0]

/-- Parser for `encDL`. -/
def decDL : List Nat → Option (QRDecodingLibrary × List Nat)
  | 0 :: rest => some (.PYZBAR, rest)
  | _ => none

/-- The configuration blob (`EncodingConfiguration.to_bytes`, which the source
delegates to `pickle.dumps`; modelled from the spec as a fixed field-by-field
encoding). -/
def to_bytes (c : QREncodingConfiguration) : List Nat :=
  encBool c.enable_multiprocessing ++ encNat c.frames_per_second ++
  encBool c.show_decoding_window ++ encBool c.verbose ++
  encOptNat c.chunk_size ++ encOptNat c.max_workers ++
  encNat c.border ++ encNat c.box_size ++
  encEC c.error_correction ++ encNat c.qr_codes_per_frame ++
  encEL c.qr_encoding_library ++ encDL c.qr_decoding_library

/-- Inverse of `to_bytes` (`EncodingConfiguration.from_bytes`, which the source
delegates to `pickle.loads`); returns `none` on a malformed blob.  Like
`pickle.loads`, trailing bytes after the encoded record are ignored. -/
def from_bytes (data : List Nat) : Option QREncodingConfiguration :=
  match decBool data with
  | none => none
  | some (emp, r1) =>
  match decNat r1 with
  | none => none
  | some (fps, r2) =>
  match decBool r2 with
  | none => none
  | some (sdw, r3) =>
  match decBool r3 with
  | none => none
  | some (vrb, r4) =>
  match decOptNat r4 with
  | none => none
  | some (cs, r5) =>
  match decOptNat r5 with
  | none => none
  | some (mw, r6) =>
  match decNat r6 with
  | none => none
  | some (bdr, r7) =>
  match decNat r7 with
  | none => none
  | some (bs, r8) =>
  match decEC r8 with
  | none => none
  | some (ec, r9) =>
  match decNat r9 with
  | none => none
  | some (qpf, r10) =>
  match decEL r10 with
  | none => none
  | some (el, r11) =>
  match decDL r11 with
  | none => none
  | some (dl, _) =>
    some { enable_multiprocessing := emp, frames_per_second := fps,
           show_decoding_window := sdw, verbose := vrb, chunk_size := cs,
           max_workers := mw, border := bdr, box_size := bs,
           error_correction := ec, qr_codes_per_frame := qpf,
           qr_encoding_library := el, qr_decoding_library := dl }

theorem decNat_encNat (n : Nat) (rest : List Nat) :
    decNat (encNat n ++ rest) = some (n, rest) := by
  suffices h : ∀ fuel n, n ≤ fuel → decNat (natDigitsF fuel n ++ 255 :: rest) = some (n, rest) by
    simpa [encNat, natDigits] using h n n le_rfl
  intro fuel
  induction fuel with
  | zero =>
    intro n hn
    interval_cases n
    simp [natDigitsF, decNat]
  | succ fuel ih =>
    intro n hn
    by_cases h0 : n = 0
    · simp [natDigitsF, h0, decNat]
    · have hdiv : n / 255 < n := Nat.div_lt_self (Nat.pos_of_ne_zero h0) (by omega)
      have hlt : n / 255 ≤ fuel := Nat.lt_succ_iff.mp (lt_of_lt_of_le hdiv hn)
      have hd : n % 255 ≠ 255 := by omega
      simp only [natDigitsF, if_neg h0, List.cons_append, decNat, if_neg hd, ih _ hlt]
      rw [Nat.mod_add_div]

theorem decBool_encBool (b : Bool) (rest : List Nat) :
    decBool (encBool b ++ rest) = some (b, rest) := by
  cases b <;> simp [encBool, decBool]

theorem decOptNat_encOptNat (o : Option Nat) (rest : List Nat) :
    decOptNat (encOptNat o ++ rest) = some (o, rest) := by
  cases o with
  | none => simp [encOptNat, decOptNat]
  | some n => simp [encOptNat, decOptNat, decNat_encNat]

theorem decEC_encEC (e : QRErrorCorrectionLevel) (rest : List Nat) :
    decEC (encEC e ++ rest) = some (e, rest) := by
  cases e <;> simp [encEC, decEC]

theorem decEL_encEL (e : QREncodingLibrary) (rest : List Nat) :
    decEL (encEL e ++ rest) = some (e, rest) := by
  cases e <;> simp [encEL, decEL]

theorem decDL_encDL (e : QRDecodingLibrary) (rest : List Nat) :
    decDL (encDL e ++ rest) = some (e, rest) := by
  cases e
  simp [encDL, decDL]

/-- The blob codec round-trips: the contract the spec imposes on the
configuration serializer. -/
theorem from_bytes_to_bytes (c : QREncodingConfiguration) :
    from_bytes (to_bytes c) = some c := by
  have h : to_bytes c ++ [] = to_bytes c := List.append_nil _
  rw [← h]
  simp only [to_bytes, List.append_assoc, from_bytes,
    decBool_encBool, decNat_encNat, decOptNat_encOptNat,
    decEC_encEC, decEL_encEL, decDL_encDL]

/- ----- Length-prefixed header (`EncodingConfiguration` in `src/base.py`) ----- -/

/-- Modelled from the spec: the 4-byte length constant imported by
`src/base.py` from `src/constants.py` (absent there); the spec's header wire
format fixes a 4-byte big-endian unsigned length. -/
def CONFIGURATION_HEADER_LENGTH_BYTES : Nat := 4

/-- Big-endian 4-byte encoding of a natural number below 2^32
(Python's `int.to_bytes(4, byteorder="big")`). -/
def toBytesBE4 (n : Nat) : List Nat :=
  [n / 16777216 % 256, n / 65536 % 256, n / 256 % 256, n % 256]

/-- Big-endian interpretation of a byte string
(Python's `int.from_bytes(byteorder="big")`). -/
def fromBytesBE (l : List Nat) : Nat :=
  l.foldl (fun acc b => acc * 256 + b) 0

theorem fromBytesBE_toBytesBE4 (n : Nat) (h : n < 4294967296) :
    fromBytesBE (toBytesBE4 n) = n := by
  simp only [toBytesBE4, fromBytesBE, List.foldl]
  omega

/-- The length-prefixed configuration header
(`EncodingConfiguration.serialize_with_length_prefix` in `src/base.py`):
the blob length as 4 big-endian bytes, then the blob.  Python's
`int.to_bytes` raises `OverflowError` when the length does not fit. -/
def serialize_length_prefixed (config : QREncodingConfiguration) :
    Except PyError (List Nat) :=
  let config_bytes := to_bytes config
  if config_bytes.length < 4294967296 then
    .ok (toBytesBE4 config_bytes.length ++ config_bytes)
  else
    .error .overflowError

/-- Inverse of the header codec
(`EncodingConfiguration.deserialize_with_length_prefix` in `src/base.py`). -/
def deserialize_length_prefixed (data : List Nat) :
    Except PyError QREncodingConfiguration :=
  if data.length < CONFIGURATION_HEADER_LENGTH_BYTES then
    .error (.valueError "Header too short to contain full configuration length.")
  else if data.length < CONFIGURATION_HEADER_LENGTH_BYTES
      + fromBytesBE (data.take CONFIGURATION_HEADER_LENGTH_BYTES) then
    .error (.valueError "Header too short to contain full configuration.")
  else
    match from_bytes ((data.drop CONFIGURATION_HEADER_LENGTH_BYTES).take
        (fromBytesBE (data.take CONFIGURATION_HEADER_LENGTH_BYTES))) with
    | some config => .ok config
    | none => .error .unpicklingError

theorem deserialize_length_prefixed_append (blob : List Nat)
    (h : blob.length < 4294967296) :
    deserialize_length_prefixed (toBytesBE4 blob.length ++ blob)
      = match from_bytes blob with
        | some config => (.ok config : Except PyError QREncodingConfiguration)
        | none => .error .unpicklingError := by
  have htake : (toBytesBE4 blob.length ++ blob).take 4 = toBytesBE4 blob.length := by
    simp [toBytesBE4]
  have hdrop : (toBytesBE4 blob.length ++ blob).drop 4 = blob := by
    simp [toBytesBE4]
  have hlength : (toBytesBE4 blob.length ++ blob).length = 4 + blob.length := by
    simp [toBytesBE4]
    omega
  unfold deserialize_length_prefixed
  rw [CONFIGURATION_HEADER_LENGTH_BYTES, hlength, htake, hdrop,
    fromBytesBE_toBytesBE4 _ h, if_neg (by omega), if_neg (by omega),
    List.take_length]

theorem deserialize_serialize_length_prefixed (config : QREncodingConfiguration)
    (header : List Nat) (h : serialize_length_prefixed config = .ok header) :
    deserialize_length_prefixed header = .ok config := by
  simp only [serialize_length_prefixed] at h
  split at h
  case isFalse => exact absurd h (by simp)
  case isTrue hlen =>
    have hh : header = toBytesBE4 (to_bytes config).length ++ to_bytes config :=
      (Except.ok.injEq _ _ ▸ h).symm
    rw [hh, deserialize_length_prefixed_append _ hlen, from_bytes_to_bytes]

/- ----- Base64 (Python `base64.b64encode` / `base64.b64decode`, standard
RFC 4648 with padding; used by `Base64Serializer` in `src/base.py`) ----- -/

/-- ASCII code of the base64 alphabet character for a sextet. -/
def b64chr (i : Nat) : Nat :=
  if i < 26 then 65 + i
  else if i < 52 then 71 + i
  else if i < 62 then i - 4
  else if i = 62 then 43
  else 47

/-- Inverse alphabet lookup; `none` for a character outside the alphabet. -/
def b64inv (c : Nat) : Option Nat :=
  if 65 ≤ c ∧ c ≤ 90 then some (c - 65)
  else if 97 ≤ c ∧ c ≤ 122 then some (c - 71)
  else if 48 ≤ c ∧ c ≤ 57 then some (c + 4)
  else if c = 43 then some 62
  else if c = 47 then some 63
  else none

/-- Standard base64 encoding with padding, three payload bytes to four
characters. -/
def b64encode : List Nat → List Nat
  | [] => []
  | [a] => [b64chr (a / 4), b64chr (a % 4 * 16), 61, 61]
  | [a, b] => [b64chr (a / 4), b64chr (a % 4 * 16 + b / 16), b64chr (b % 16 * 4), 61]
  | a :: b :: c :: rest =>
      b64chr (a / 4) :: b64chr (a % 4 * 16 + b / 16) ::
      b64chr (b % 16 * 4 + c / 64) :: b64chr (c % 64) :: b64encode rest

/-- Standard base64 decoding; fails with a `binascii.Error` (a `ValueError`
subclass) on malformed input. -/
def b64decode : List Nat → Except PyError (List Nat)
  | [] => .ok []
  | w :: x :: y :: z :: rest =>
      match b64inv w, b64inv x with
      | some sw, some sx =>
        if z = 61 then
          if rest.isEmpty then
            if y = 61 then .ok [sw * 4 + sx / 16]
            else
              match b64inv y with
              | some sy => .ok [sw * 4 + sx / 16, sx % 16 * 16 + sy / 4]
              | none => .error (.valueError "Invalid base64-encoded string")
          else .error (.valueError "Invalid base64-encoded string")
        else
          match b64inv y, b64inv z with
          | some sy, some sz =>
            match b64decode rest with
            | .ok tail =>
                .ok ((sw * 4 + sx / 16) :: (sx % 16 * 16 + sy / 4) ::
                     (sy % 4 * 64 + sz) :: tail)
            | .error e => .error e
          | _, _ => .error (.valueError "Invalid base64-encoded string")
      | _, _ => .error (.valueError "Invalid base64-encoded string")
  | _ => .error (.valueError "Invalid base64-encoded string")

theorem b64inv_b64chr : ∀ i < 64, b64inv (b64chr i) = some i := by decide

theorem b64chr_ne_pad : ∀ i < 64, b64chr i ≠ 61 := by decide

theorem b64chr_lt_256 (i : Nat) : b64chr i < 256 := by
  unfold b64chr
  repeat' split
  all_goals omega

theorem pack_div (x y k : Nat) (hy : y < k) : (x * k + y) / k = x := by
  have hk : 0 < k := Nat.pos_of_ne_zero (by omega)
  rw [Nat.add_comm, Nat.add_mul_div_right _ _ hk, Nat.div_eq_of_lt hy,
    Nat.zero_add]

theorem pack_mod (x y k : Nat) (hy : y < k) : (x * k + y) % k = y := by
  rw [Nat.add_comm, Nat.add_mul_mod_self_right]
  exact Nat.mod_eq_of_lt hy

/-- The base64 round-trip for byte strings: the serializer contract of the
spec, instantiated at the `Base64Serializer`. -/
theorem b64decode_b64encode (l : List Nat) (h : ∀ x ∈ l, x < 256) :
    b64decode (b64encode l) = .ok l := by
  induction l using b64encode.induct with
  | case1 => simp [b64encode, b64decode]
  | case2 a =>
    have ha : a < 256 := h a (by simp)
    have h1 : a / 4 < 64 := by omega
    have h2 : a % 4 * 16 < 64 := by omega
    simp only [b64encode, b64decode, b64inv_b64chr _ h1, b64inv_b64chr _ h2,
      List.isEmpty_nil, if_pos rfl, if_true]
    congr 2
    rw [Nat.mul_div_cancel _ (by omega : (0:Nat) < 16)]
    omega
  | case3 a b =>
    have ha : a < 256 := h a (by simp)
    have hb : b < 256 := h b (by simp)
    have h1 : a / 4 < 64 := by omega
    have h2 : a % 4 * 16 + b / 16 < 64 := by omega
    have h3 : b % 16 * 4 < 64 := by omega
    have hy : b64chr (b % 16 * 4) ≠ 61 := b64chr_ne_pad _ h3
    have hb16 : b / 16 < 16 := by omega
    simp only [b64encode, b64decode, b64inv_b64chr _ h1, b64inv_b64chr _ h2,
      b64inv_b64chr _ h3, List.isEmpty_nil, if_pos rfl, if_neg hy]
    have e1 : a / 4 * 4 + (a % 4 * 16 + b / 16) / 16 = a := by
      rw [pack_div _ _ _ hb16]
      omega
    have e2 : (a % 4 * 16 + b / 16) % 16 * 16 + b % 16 * 4 / 4 = b := by
      rw [pack_mod _ _ _ hb16, Nat.mul_div_cancel _ (by omega : (0:Nat) < 4)]
      omega
    rw [e1, e2]
    simp
  | case4 a b c rest ih =>
    have ha : a < 256 := h a (by simp)
    have hb : b < 256 := h b (by simp)
    have hc : c < 256 := h c (by simp)
    have h1 : a / 4 < 64 := by omega
    have h2 : a % 4 * 16 + b / 16 < 64 := by omega
    have h3 : b % 16 * 4 + c / 64 < 64 := by omega
    have h4 : c % 64 < 64 := by omega
    have hz : b64chr (c % 64) ≠ 61 := b64chr_ne_pad _ h4
    have hrest : ∀ x ∈ rest, x < 256 := fun x hx => h x (by simp [hx])
    have hb16 : b / 16 < 16 := by omega
    have hc64 : c / 64 < 4 := by omega
    simp only [b64encode, b64decode, b64inv_b64chr _ h1, b64inv_b64chr _ h2,
      b64inv_b64chr _ h3, b64inv_b64chr _ h4, if_neg hz, ih hrest]
    congr 1
    have e1 : a / 4 * 4 + (a % 4 * 16 + b / 16) / 16 = a := by
      rw [pack_div _ _ _ hb16]
      omega
    have e2 : (a % 4 * 16 + b / 16) % 16 * 16 + (b % 16 * 4 + c / 64) / 4 = b := by
      rw [pack_mod _ _ _ hb16, pack_div _ _ _ hc64]
      omega
    have e3 : (b % 16 * 4 + c / 64) % 4 * 64 + c % 64 = c := by
      rw [pack_mod _ _ _ hc64]
      omega
    rw [e1, e2, e3]

/-- Characters emitted by the base64 encoder are bytes (in fact ASCII). -/
theorem b64encode_lt_256 (l : List Nat) : ∀ x ∈ b64encode l, x < 256 := by
  induction l using b64encode.induct with
  | case1 => simp [b64encode]
  | case2 a =>
    simp only [b64encode, List.mem_cons, List.not_mem_nil, or_false]
    rintro x (rfl | rfl | rfl | rfl)
    · exact b64chr_lt_256 _
    · exact b64chr_lt_256 _
    · omega
    · omega
  | case3 a b =>
    simp only [b64encode, List.mem_cons, List.not_mem_nil, or_false]
    rintro x (rfl | rfl | rfl | rfl)
    · exact b64chr_lt_256 _
    · exact b64chr_lt_256 _
    · exact b64chr_lt_256 _
    · omega
  | case4 a b c rest ih =>
    simp only [b64encode, List.mem_cons]
    rintro x (rfl | rfl | rfl | rfl | hx)
    · exact b64chr_lt_256 _
    · exact b64chr_lt_256 _
    · exact b64chr_lt_256 _
    · exact b64chr_lt_256 _
    · exact ih _ hx

/- ----- Serialization layer (`src/base.py`) ----- -/

/-- The serialization layer of the pipeline (the `Serializer` dataclass in
`src/base.py`): a pair of callables.  `deserialize` may raise, so it lives in
the exception layer. -/
structure Serializer where
  serialize : List Nat → List Nat
  deserialize : List Nat → Except PyError (List Nat)

/-- The base64 serializer (`Base64Serializer` in `src/base.py`, the default
serializer of `QRVideoEncoder` in `src/qr_video_encoder.py`). -/
def Base64Serializer : Serializer :=
  { serialize := b64encode, deserialize := b64decode }

/-- The identity serializer (`IdentitySerializer` in `src/base.py`). -/
def IdentitySerializer : Serializer :=
  { serialize := fun b => b, deserialize := fun b => .ok b }

/- ----- Frames and the QR encoder/decoder
(`src/qr_encoding.py`, `src/qr_decoding.py`, `src/performance.py`) ----- -/

/-- A rendered raster frame.  The QR render and detect primitives are external
collaborators (`qrcode`/`segno`/`pyzbar`); per the spec's symbol-codec and
lossless-container contracts, a frame is modelled by the list of symbol
payloads it carries (one symbol per frame on the encode path), which the
detector returns in order. -/
structure Frame where
  symbols : List (List Nat)
  deriving DecidableEq

/-- Sequential effectful map: the embedding of the source's accumulating
`for` loops, propagating the first raised exception. -/
def mapExcept {α β : Type} (f : α → Except PyError β) : List α → Except PyError (List β)
  | [] => .ok []
  | a :: as =>
    match f a with
    | .error e => .error e
    | .ok b =>
      match mapExcept f as with
      | .error e => .error e
      | .ok bs => .ok (b :: bs)

/-- The parallel task driver (`execute_parallel_tasks` in
`src/performance.py`): `ProcessPoolExecutor.map` over thunks, returning the
ordered results as a list; a worker's exception is re-raised when the results
are iterated.  The `length`/`verbose`/`description` arguments only drive the
progress bar and have no semantic effect. -/
def execute_parallel_tasks {α : Type} (tasks : List (Unit → Except PyError α)) :
    Except PyError (List α) :=
  mapExcept (fun t => t ()) tasks

/-- The per-chunk renderer (`_generate_qr_image` in `src/qr_encoding.py`):
checks the symbol capacity for the configured error-correction level, then
renders one QR symbol carrying the chunk (the `qrcode`/`segno` branches both
render the chunk bytes; the libraries are external and lossless per the
spec's symbol-codec contract). -/
def generate_qr_image (data : List Nat) (configuration : QREncodingConfiguration) :
    Except PyError Frame :=
  let max_bytes := QRErrorCorrectionLevel.to_max_bytes configuration.error_correction
  if data.length > max_bytes then
    .error (.valueError "Data size exceeds the maximum allowed size for a QR code.")
  else
    .ok { symbols := [data] }

/-- Number of chunks produced by `range(0, len, seg)` (requires `seg > 0`). -/
def numChunks (seg len : Nat) : Nat := (len + seg - 1) / seg

/-- The chunking of the serialized data: `data[i : i + seg]` for
`i in range(0, len(data), seg)`. -/
def chunksOf (seg : Nat) (data : List Nat) : List (List Nat) :=
  (List.range (numChunks seg data.length)).map fun k => (data.drop (k * seg)).take seg

/-- The effective segment size: the `max_bytes` value computed at the top of
`generate_qr_images` in `src/qr_encoding.py`
(`min(chunk_size, max_bytes)` when a chunk size is configured, the per-level
capacity otherwise); the spec's "effective segment size". -/
def effSeg (configuration : QREncodingConfiguration) : Nat :=
  match configuration.chunk_size with
  | some cs => min cs (QRErrorCorrectionLevel.to_max_bytes configuration.error_correction)
  | none => QRErrorCorrectionLevel.to_max_bytes configuration.error_correction

/-- The chunk-and-render stage (`generate_qr_images` in `src/qr_encoding.py`):
computes the effective segment size, slices the data, and renders each chunk,
either through the parallel task driver or through a sequential loop.  (The
source reads the flag under the name `enable_parallelization`; modelled from
the spec as `enable_multiprocessing`.  Python's `range` raises `ValueError`
on a zero step.) -/
def generate_qr_images (data : List Nat) (configuration : QREncodingConfiguration) :
    Except PyError (List Frame) :=
  if effSeg configuration = 0 then .error (.valueError "range() arg 3 must not be zero")
  else if configuration.enable_multiprocessing then
    execute_parallel_tasks
      ((chunksOf (effSeg configuration) data).map
        fun chunk _ => generate_qr_image chunk configuration)
  else
    mapExcept (fun chunk => generate_qr_image chunk configuration)
      (chunksOf (effSeg configuration) data)

/-- The per-frame detector (`_decode_qr_image` in `src/qr_decoding.py`):
`pyzbar` detection (the only decoding library; `OPEN_CV` is commented out in
the source enums), which raises when no symbol is found and otherwise returns
the concatenation of the detected symbol payloads in order. -/
def decode_qr_image (image : Frame) (configuration : Option QREncodingConfiguration) :
    Except PyError (List Nat) :=
  if image.symbols.isEmpty then
    .error (.valueError "Decoding did not yield any results.")
  else
    .ok image.symbols.flatten

/-- The frame-stream decoder (`decode_frames_to_data` in
`src/qr_decoding.py`): rejects an empty frame list, then decodes every frame
(parallel driver or sequential loop, depending on the configuration) and
concatenates the per-frame bytes in frame order. -/
def decode_frames_to_data (frames : List Frame)
    (configuration : Option QREncodingConfiguration) : Except PyError (List Nat) :=
  if frames.length = 0 then
    .error (.valueError "No frames were supplied to the decoding function.")
  else if (match configuration with
           | some c => c.enable_multiprocessing
           | none => false) then
    match execute_parallel_tasks
        (frames.map fun frame _ => decode_qr_image frame configuration) with
    | .error e => .error e
    | .ok results => .ok results.flatten
  else
    match mapExcept (fun frame => decode_qr_image frame configuration) frames with
    | .error e => .error e
    | .ok results => .ok results.flatten

/- ----- Pipeline orchestrator (`VideoEncodingPipeline` in `src/base.py`) ----- -/

/-- The result dataclass of the pipeline (`Result` in `src/base.py`): an
optional value and an optional exception. -/
structure Result where
  value : Option (List Nat)
  exception : Option PyError
  deriving DecidableEq

/-- The `is_valid` property of `Result` in `src/base.py`. -/
def Result.is_valid (r : Result) : Bool := r.exception.isNone

/-- The default validation function (`validate_equals` in `src/base.py`). -/
def validate_equals (input output : List Nat) : Bool := input == output

/-- The encode half of the pipeline (`VideoEncodingPipeline.encode` in
`src/base.py`): serialize the length-prefixed configuration header, run it
through the serializer and the QR encoder, check that it produced exactly one
frame (`try_get_iter_count` is absent from `src/utils.py`; modelled from the
spec, which asserts exactly one header frame), then encode the serialized
payload and concatenate the two frame streams, header first.  Writing the
frames through the video handler does not change the stream. -/
def pipeline_encode (serializer : Serializer) (data : List Nat)
    (configuration : QREncodingConfiguration) : Except PyError (List Frame) :=
  match serialize_length_prefixed configuration with
  | .error e => .error e
  | .ok header_with_length =>
    let header_serialized := serializer.serialize header_with_length
    match generate_qr_images header_serialized configuration with
    | .error e => .error e
    | .ok header_frames =>
      if header_frames.length ≠ 1 then
        .error (.pipelineValidation "The configuration header must be exactly one frame.")
      else
        let payload_serialized := serializer.serialize data
        match generate_qr_images payload_serialized configuration with
        | .error e => .error e
        | .ok payload_frames => .ok (header_frames ++ payload_frames)

/-- The decode half of the pipeline (`VideoEncodingPipeline.decode` in
`src/base.py`), applied to a frame stream: rejects an empty stream, decodes
the first frame with no configuration, deserializes and parses the
length-prefixed header, then decodes the remaining frames with the parsed
configuration and deserializes the result.  The caller-supplied
`configuration` argument is only read for its `verbose` flag (a print). -/
def pipeline_decode (serializer : Serializer)
    (configuration : Option QREncodingConfiguration) (frames : List Frame) :
    Except PyError (List Nat) :=
  match frames with
  | [] => .error (.valueError "Supply either a file path or frames for decoding.")
  | header_frame :: rest =>
    match decode_frames_to_data [header_frame] none with
    | .error e => .error e
    | .ok raw_header_serialized =>
      match serializer.deserialize raw_header_serialized with
      | .error e => .error e
      | .ok raw_header =>
        match deserialize_length_prefixed raw_header with
        | .error e => .error e
        | .ok parsed =>
          match decode_frames_to_data rest (some parsed) with
          | .error e => .error e
          | .ok raw_payload_serialized =>
            serializer.deserialize raw_payload_serialized

/-- The full round trip (`VideoEncodingPipeline.run` in `src/base.py`):
encode (writing through the video handler unless `mock`), re-read the frames
from the container when not `mock` (the video handler is lossless per the
spec's container contract, so reading back returns the written stream),
decode while catching only `ValueError`, then validate.  Exceptions outside
the `except ValueError` clause propagate to the caller as `.error`. -/
def pipeline_run (serializer : Serializer)
    (validation_function : List Nat → List Nat → Bool) (data : List Nat)
    (configuration : QREncodingConfiguration) (mock : Bool) :
    Except PyError Result :=
  match pipeline_encode serializer data configuration with
  | .error e => .error e
  | .ok frames =>
    let read_frames := if mock then frames else frames
    match pipeline_decode serializer (some configuration) read_frames with
    | .error e =>
      if e.isValueErr then .ok { value := none, exception := some e }
      else .error e
    | .ok output =>
      if validation_function data output then
        .ok { value := some output, exception := none }
      else
        .ok { value := none,
              exception := some (.pipelineValidation
                "The decoded data does not match the encoded data. ") }

/- ----- Supporting lemmas ----- -/

theorem to_max_bytes_pos (ec : QRErrorCorrectionLevel) : 0 < ec.to_max_bytes := by
  cases ec
  all_goals decide

theorem effSeg_le (c : QREncodingConfiguration) :
    effSeg c ≤ c.error_correction.to_max_bytes := by
  cases h : c.chunk_size
  · simp [effSeg, h]
  · simp [effSeg, h]

theorem chunksOf_nil (seg : Nat) : chunksOf seg [] = [] := by
  cases seg with
  | zero => simp [chunksOf, numChunks]
  | succ s =>
    have : numChunks (s + 1) 0 = 0 := by
      unfold numChunks
      rw [Nat.div_eq_of_lt (by omega)]
    simp [chunksOf, this]

theorem chunksOf_length (seg : Nat) (data : List Nat) :
    (chunksOf seg data).length = numChunks seg data.length := by
  simp [chunksOf]

theorem chunksOf_le (seg : Nat) (data : List Nat) :
    ∀ chunk ∈ chunksOf seg data, chunk.length ≤ seg := by
  intro chunk hch
  simp only [chunksOf, List.mem_map, List.mem_range] at hch
  obtain ⟨k, _, rfl⟩ := hch
  simp [List.length_take]

theorem numChunks_succ (seg len : Nat) (hseg : 0 < seg) (hlen : 0 < len) :
    numChunks seg len = numChunks seg (len - seg) + 1 := by
  unfold numChunks
  rcases le_or_lt len seg with h | h
  · have h1 : (len + seg - 1) / seg = 1 := by
      apply Nat.div_eq_of_lt_le
      · omega
      · omega
    have h2 : len - seg = 0 := by omega
    rw [h1, h2]
    rw [Nat.div_eq_of_lt (by omega)]
  · have h3 : len + seg - 1 = (len - seg + seg - 1) + seg := by omega
    rw [h3, Nat.add_div_right _ hseg]

theorem chunksOf_cons (seg : Nat) (data : List Nat) (hseg : 0 < seg)
    (hd : data ≠ []) :
    chunksOf seg data = data.take seg :: chunksOf seg (data.drop seg) := by
  have hlen : 0 < data.length := List.length_pos.mpr hd
  unfold chunksOf
  rw [List.length_drop, numChunks_succ seg data.length hseg hlen,
    List.range_succ_eq_map]
  simp only [List.map_cons, Nat.zero_mul, List.drop_zero, List.map_map]
  congr 1
  apply List.map_congr_left
  intro k hk
  simp only [Function.comp_apply]
  rw [List.drop_drop]
  congr 1
  rw [Nat.succ_eq_add_one]
  ring_nf

theorem chunksOf_flatten (seg : Nat) (hseg : 0 < seg) (data : List Nat) :
    (chunksOf seg data).flatten = data := by
  suffices h : ∀ (n : Nat) (data : List Nat), data.length ≤ n →
      (chunksOf seg data).flatten = data from h data.length data le_rfl
  intro n
  induction n with
  | zero =>
    intro data h
    have : data = [] := List.eq_nil_of_length_eq_zero (by omega)
    subst this
    simp [chunksOf_nil]
  | succ n ih =>
    intro data h
    by_cases hd : data = []
    · subst hd
      simp [chunksOf_nil]
    · have hlen : 0 < data.length := List.length_pos.mpr hd
      rw [chunksOf_cons seg data hseg hd, List.flatten_cons,
        ih (data.drop seg) (by simp [List.length_drop]; omega),
        List.take_append_drop]

theorem chunksOf_singleton (seg : Nat) (data : List Nat) (h1 : 0 < data.length)
    (h2 : data.length ≤ seg) : chunksOf seg data = [data] := by
  have hseg : 0 < seg := by omega
  have hnum : numChunks seg data.length = 1 := by
    unfold numChunks
    apply Nat.div_eq_of_lt_le
    · omega
    · omega
  unfold chunksOf
  rw [hnum]
  simp [List.range_succ, List.take_of_length_le h2]

theorem chunksOf_ne_nil (seg : Nat) (data : List Nat) (hseg : 0 < seg)
    (hd : data ≠ []) : chunksOf seg data ≠ [] := by
  rw [chunksOf_cons seg data hseg hd]
  simp

theorem mapExcept_map {α β γ : Type} (g : β → Except PyError γ) (f : α → β)
    (l : List α) : mapExcept g (l.map f) = mapExcept (fun a => g (f a)) l := by
  induction l with
  | nil => rfl
  | cons a as ih =>
    simp only [List.map_cons, mapExcept, ih]

theorem mapExcept_ok {α β : Type} (f : α → Except PyError β) (g : α → β)
    (l : List α) (h : ∀ a ∈ l, f a = .ok (g a)) :
    mapExcept f l = .ok (l.map g) := by
  induction l with
  | nil => rfl
  | cons a as ih =>
    have ha : f a = .ok (g a) := h a (by simp)
    have has : ∀ a ∈ as, f a = .ok (g a) := fun x hx => h x (by simp [hx])
    simp only [mapExcept, ha, ih has, List.map_cons]

theorem execute_parallel_tasks_map {α β : Type} (f : α → Except PyError β)
    (l : List α) :
    execute_parallel_tasks (l.map fun a _ => f a) = mapExcept f l := by
  unfold execute_parallel_tasks
  rw [mapExcept_map]

theorem generate_qr_image_ok (chunk : List Nat) (cfg : QREncodingConfiguration)
    (h : chunk.length ≤ cfg.error_correction.to_max_bytes) :
    generate_qr_image chunk cfg = .ok { symbols := [chunk] } := by
  unfold generate_qr_image
  rw [if_neg (by omega)]

theorem generate_qr_images_eq (data : List Nat) (cfg : QREncodingConfiguration)
    (h : effSeg cfg ≠ 0) :
    generate_qr_images data cfg
      = .ok ((chunksOf (effSeg cfg) data).map fun chunk => { symbols := [chunk] }) := by
  have hok : ∀ chunk ∈ chunksOf (effSeg cfg) data,
      generate_qr_image chunk cfg = .ok { symbols := [chunk] } := by
    intro chunk hch
    exact generate_qr_image_ok chunk cfg
      (le_trans (chunksOf_le _ _ _ hch) (effSeg_le cfg))
  unfold generate_qr_images
  rw [if_neg h]
  by_cases hm : cfg.enable_multiprocessing
  · rw [if_pos hm, execute_parallel_tasks_map, mapExcept_ok _ _ _ hok]
  · rw [if_neg hm, mapExcept_ok _ _ _ hok]

theorem generate_qr_images_zero (data : List Nat) (cfg : QREncodingConfiguration)
    (h : effSeg cfg = 0) :
    generate_qr_images data cfg = .error (.valueError "range() arg 3 must not be zero") := by
  unfold generate_qr_images
  rw [if_pos h]

theorem decode_qr_image_symbol (chunk : List Nat)
    (cfg : Option QREncodingConfiguration) :
    decode_qr_image { symbols := [chunk] } cfg = .ok chunk := by
  simp [decode_qr_image]

theorem decode_frames_to_data_map (chunks : List (List Nat))
    (cfg : Option QREncodingConfiguration) (hne : chunks ≠ []) :
    decode_frames_to_data (chunks.map fun chunk => { symbols := [chunk] }) cfg
      = .ok chunks.flatten := by
  have hmap : ∀ frame ∈ chunks.map (fun chunk => ({ symbols := [chunk] } : Frame)),
      decode_qr_image frame cfg = .ok frame.symbols.flatten := by
    intro frame hf
    simp only [List.mem_map] at hf
    obtain ⟨chunk, _, rfl⟩ := hf
    simp [decode_qr_image]
  have hlen : (chunks.map fun chunk => ({ symbols := [chunk] } : Frame)).length ≠ 0 := by
    simp [hne]
  have hcomp : ((fun a : Frame => a.symbols.flatten) ∘
      fun chunk : List Nat => ({ symbols := [chunk] } : Frame)) = fun chunk => chunk := by
    funext chunk
    simp
  unfold decode_frames_to_data
  rw [if_neg hlen]
  split
  · rw [execute_parallel_tasks_map, mapExcept_ok _ _ _ hmap]
    simp only [List.map_map, hcomp]
    simp
  · rw [mapExcept_ok _ _ _ hmap]
    simp only [List.map_map, hcomp]
    simp

theorem natDigitsF_lt_256 (fuel : Nat) : ∀ (n : Nat), ∀ x ∈ natDigitsF fuel n, x < 256 := by
  induction fuel with
  | zero =>
    intro n x hx
    simp [natDigitsF] at hx
  | succ fuel ih =>
    intro n x hx
    unfold natDigitsF at hx
    split at hx
    · simp at hx
    · rcases List.mem_cons.mp hx with h | h
      · omega
      · exact ih _ x h

theorem encNat_lt_256 (n : Nat) : ∀ x ∈ encNat n, x < 256 := by
  intro x hx
  rcases List.mem_append.mp hx with h | h
  · exact natDigitsF_lt_256 n n x h
  · simp at h
    omega

theorem encBool_lt_256 (b : Bool) : ∀ x ∈ encBool b, x < 256 := by
  cases b
  all_goals simp [encBool]

theorem encOptNat_lt_256 (o : Option Nat) : ∀ x ∈ encOptNat o, x < 256 := by
  cases o with
  | none => simp [encOptNat]
  | some n =>
    intro x hx
    rcases List.mem_cons.mp hx with h | h
    · omega
    · exact encNat_lt_256 n x h

theorem to_bytes_lt_256 (c : QREncodingConfiguration) : ∀ x ∈ to_bytes c, x < 256 := by
  intro x hx
  unfold to_bytes at hx
  simp only [List.append_assoc, List.mem_append] at hx
  rcases hx with h | h | h | h | h | h | h | h | h | h | h | h
  · exact encBool_lt_256 _ x h
  · exact encNat_lt_256 _ x h
  · exact encBool_lt_256 _ x h
  · exact encBool_lt_256 _ x h
  · exact encOptNat_lt_256 _ x h
  · exact encOptNat_lt_256 _ x h
  · exact encNat_lt_256 _ x h
  · exact encNat_lt_256 _ x h
  · cases hc : c.error_correction
    all_goals (rw [hc] at h; simp [encEC] at h; omega)
  · exact encNat_lt_256 _ x h
  · cases hc : c.qr_encoding_library
    all_goals (rw [hc] at h; simp [encEL] at h; omega)
  · cases hc : c.qr_decoding_library
    all_goals (rw [hc] at h; simp [encDL] at h; omega)

theorem serialize_length_prefixed_lt_256 (c : QREncodingConfiguration)
    (header : List Nat) (h : serialize_length_prefixed c = .ok header) :
    ∀ x ∈ header, x < 256 := by
  simp only [serialize_length_prefixed] at h
  split at h
  case isFalse => exact absurd h (by simp)
  case isTrue hlen =>
    have hh : header = toBytesBE4 (to_bytes c).length ++ to_bytes c :=
      (Except.ok.injEq _ _ ▸ h).symm
    subst hh
    intro x hx
    rcases List.mem_append.mp hx with h' | h'
    · simp only [toBytesBE4, List.mem_cons, List.not_mem_nil, or_false] at h'
      rcases h' with rfl | rfl | rfl | rfl
      all_goals omega
    · exact to_bytes_lt_256 c x h'

theorem b64encode_length (l : List Nat) :
    (b64encode l).length = (l.length + 2) / 3 * 4 := by
  induction l using b64encode.induct with
  | case1 => simp [b64encode]
  | case2 a => simp [b64encode]
  | case3 a b => simp [b64encode]
  | case4 a b c rest ih =>
    simp only [b64encode, List.length_cons, ih]
    have : (rest.length + 3 + 2) / 3 = (rest.length + 2) / 3 + 1 := by omega
    omega

theorem b64encode_ne_nil (l : List Nat) (h : l ≠ []) : b64encode l ≠ [] := by
  have hlen : 0 < l.length := List.length_pos.mpr h
  have := b64encode_length l
  intro hcontra
  rw [hcontra] at this
  simp at this
  omega

/-- Whether the serialized header fits into a single frame: the serializer
succeeds and the serialized header is non-empty and no longer than the
effective segment size, which is exactly when `generate_qr_images` produces
one header frame. -/
def header_fits (serializer : Serializer) (configuration : QREncodingConfiguration) : Bool :=
  match serialize_length_prefixed configuration with
  | .error _ => false
  | .ok header =>
    !(serializer.serialize header).isEmpty
      && decide ((serializer.serialize header).length ≤ effSeg configuration)

theorem header_fits_elim (serializer : Serializer) (cfg : QREncodingConfiguration)
    (h : header_fits serializer cfg = true) :
    ∃ header, serialize_length_prefixed cfg = .ok header
      ∧ serializer.serialize header ≠ []
      ∧ (serializer.serialize header).length ≤ effSeg cfg := by
  unfold header_fits at h
  split at h
  case h_1 => simp at h
  case h_2 header heq =>
    refine ⟨header, heq, ?_, ?_⟩
    · simp only [Bool.and_eq_true, Bool.not_eq_true', List.isEmpty_eq_false] at h
      exact h.1
    · simp only [Bool.and_eq_true, decide_eq_true_eq] at h
      exact h.2

theorem pipeline_encode_eq (serializer : Serializer) (b : List Nat)
    (cfg : QREncodingConfiguration) (header : List Nat)
    (hhdr : serialize_length_prefixed cfg = .ok header)
    (hne : serializer.serialize header ≠ [])
    (hle : (serializer.serialize header).length ≤ effSeg cfg) :
    pipeline_encode serializer b cfg
      = .ok ({ symbols := [serializer.serialize header] } ::
          (chunksOf (effSeg cfg) (serializer.serialize b)).map
            fun chunk => { symbols := [chunk] }) := by
  have hpos : 0 < (serializer.serialize header).length := List.length_pos.mpr hne
  have hseg : effSeg cfg ≠ 0 := by omega
  have hheader : generate_qr_images (serializer.serialize header) cfg
      = .ok [{ symbols := [serializer.serialize header] }] := by
    rw [generate_qr_images_eq _ _ hseg, chunksOf_singleton _ _ hpos hle]
    rfl
  unfold pipeline_encode
  rw [hhdr]
  simp only [hheader, generate_qr_images_eq _ _ hseg, List.length_cons,
    List.length_nil]
  rw [if_neg (by omega)]
  simp

theorem decode_header_frame (s : List Nat) :
    decode_frames_to_data [{ symbols := [s] }] none = .ok s := by
  have h := decode_frames_to_data_map [s] none (by simp)
  simpa using h

theorem pipeline_run_encoded (vf : List Nat → List Nat → Bool) (b : List Nat)
    (cfg : QREncodingConfiguration) (mock : Bool)
    (hb : b ≠ []) (hbytes : ∀ x ∈ b, x < 256)
    (hfit : header_fits Base64Serializer cfg = true) :
    pipeline_run Base64Serializer vf b cfg mock
      = if vf b b
        then .ok { value := some b, exception := none }
        else .ok ⟨none, some (.pipelineValidation
          "The decoded data does not match the encoded data. ")⟩ := by
  obtain ⟨header, hhdr, hne, hle⟩ := header_fits_elim _ _ hfit
  have hltH : ∀ x ∈ header, x < 256 :=
    serialize_length_prefixed_lt_256 cfg header hhdr
  have hpos : 0 < (Base64Serializer.serialize header).length := List.length_pos.mpr hne
  have hseg : 0 < effSeg cfg := by omega
  have hchne : chunksOf (effSeg cfg) (Base64Serializer.serialize b) ≠ [] :=
    chunksOf_ne_nil _ _ hseg (b64encode_ne_nil b hb)
  have hdecser : Base64Serializer.deserialize (Base64Serializer.serialize header)
      = .ok header := b64decode_b64encode header hltH
  have hdecpay : Base64Serializer.deserialize (Base64Serializer.serialize b)
      = .ok b := b64decode_b64encode b hbytes
  have hdecode : pipeline_decode Base64Serializer (some cfg)
      ({ symbols := [Base64Serializer.serialize header] } ::
        (chunksOf (effSeg cfg) (Base64Serializer.serialize b)).map
          fun chunk => { symbols := [chunk] }) = .ok b := by
    unfold pipeline_decode
    simp only [decode_header_frame, hdecser,
      deserialize_serialize_length_prefixed cfg header hhdr,
      decode_frames_to_data_map _ _ hchne, chunksOf_flatten _ hseg, hdecpay]
  unfold pipeline_run
  rw [pipeline_encode_eq Base64Serializer b cfg header hhdr hne hle]
  simp only [ite_self, hdecode]

theorem pipeline_run_empty_payload (vf : List Nat → List Nat → Bool)
    (cfg : QREncodingConfiguration) (mock : Bool)
    (hfit : header_fits Base64Serializer cfg = true) :
    pipeline_run Base64Serializer vf [] cfg mock
      = .ok ⟨none, some (.valueError
        "No frames were supplied to the decoding function.")⟩ := by
  obtain ⟨header, hhdr, hne, hle⟩ := header_fits_elim _ _ hfit
  have hltH : ∀ x ∈ header, x < 256 :=
    serialize_length_prefixed_lt_256 cfg header hhdr
  have hdecser : Base64Serializer.deserialize (Base64Serializer.serialize header)
      = .ok header := b64decode_b64encode header hltH
  have hchunks : chunksOf (effSeg cfg) (Base64Serializer.serialize []) = [] := by
    show chunksOf (effSeg cfg) (b64encode []) = []
    rw [show b64encode [] = [] from rfl, chunksOf_nil]
  have hdecode : pipeline_decode Base64Serializer (some cfg)
      ({ symbols := [Base64Serializer.serialize header] } ::
        (chunksOf (effSeg cfg) (Base64Serializer.serialize [])).map
          fun chunk => { symbols := [chunk] })
      = .error (.valueError "No frames were supplied to the decoding function.") := by
    rw [hchunks]
    unfold pipeline_decode
    simp only [decode_header_frame, hdecser,
      deserialize_serialize_length_prefixed cfg header hhdr, List.map_nil]
    rfl
  unfold pipeline_run
  rw [pipeline_encode_eq Base64Serializer [] cfg header hhdr hne hle]
  simp only [ite_self, hdecode]
  rfl

/- ----- Claim theorems ----- -/

/-- C1 counterexample: with the valid configuration `chunk_size = 1`, the
serialized header does not fit one frame, so `run` raises
`PipelineValidationException` out of the `Result` surface instead of
returning the payload: `run(b, path, config).value == b` fails. -/
theorem C1_roundtrip_counterexample :
    pipeline_run Base64Serializer validate_equals [1] { chunk_size := some 1 } false
      = .error (.pipelineValidation
          "The configuration header must be exactly one frame.") := by
  rfl

/-- C1 (amended): for every non-empty byte sequence `b` and every valid
configuration whose serialized header fits into a single frame, running the
full pipeline with the default (base64) serializer returns the original
payload: `run(b, path, config).value == b`. -/
theorem C1_roundtrip (b : List Nat) (cfg : QREncodingConfiguration) (mock : Bool)
    (hb : b ≠ []) (hbytes : ∀ x ∈ b, x < 256)
    (hfit : header_fits Base64Serializer cfg = true) :
    pipeline_run Base64Serializer validate_equals b cfg mock
      = .ok { value := some b, exception := none } := by
  rw [pipeline_run_encoded validate_equals b cfg mock hb hbytes hfit]
  simp [validate_equals]

/-- Witness for C1 at `b = [72]` and the default configuration. -/
theorem C1_roundtrip_witness :
    [72] ≠ ([] : List Nat)
    ∧ (∀ x ∈ [72], x < 256)
    ∧ header_fits Base64Serializer {} = true
    ∧ pipeline_run Base64Serializer validate_equals [72] {} false
        = .ok { value := some [72], exception := none } :=
  ⟨by decide, by decide, by decide,
    C1_roundtrip [72] {} false (by decide) (by decide) (by decide)⟩

/-- C2 (intended semantics): with the parallel task driver modelled as the
order-preserving map that `ProcessPoolExecutor.map` provides, the parallel
and sequential branches of the chunk renderer and of the frame decoder
produce identical results for every input, so toggling
`enable_multiprocessing` cannot change the output. -/
theorem C2_parallel_eq_serial (data : List Nat) (frames : List Frame)
    (cfg : QREncodingConfiguration) :
    generate_qr_images data { cfg with enable_multiprocessing := true }
      = generate_qr_images data { cfg with enable_multiprocessing := false }
    ∧ decode_frames_to_data frames (some { cfg with enable_multiprocessing := true })
      = decode_frames_to_data frames (some { cfg with enable_multiprocessing := false }) := by
  constructor
  · have heff : effSeg { cfg with enable_multiprocessing := true }
        = effSeg { cfg with enable_multiprocessing := false } := rfl
    by_cases h : effSeg { cfg with enable_multiprocessing := false } = 0
    · rw [generate_qr_images_zero _ _ (by rw [heff]; exact h),
        generate_qr_images_zero _ _ h]
    · rw [generate_qr_images_eq _ _ (by rw [heff]; exact h),
        generate_qr_images_eq _ _ h]
      rfl
  · unfold decode_frames_to_data
    by_cases hlen : frames.length = 0
    · rw [if_pos hlen, if_pos hlen]
    · rw [if_neg hlen, if_neg hlen, if_pos (by rfl), if_neg (by simp),
        execute_parallel_tasks_map]
      rfl

/-- C3: for every valid `EncodingConfiguration`, deserializing the
length-prefixed serialization gives the configuration back; the hypothesis
is Python's `int.to_bytes` requirement that the blob length fit the 4-byte
prefix. -/
theorem C3_header_roundtrip (config : QREncodingConfiguration)
    (h : (to_bytes config).length < 4294967296) :
    ∃ header, serialize_length_prefixed config = .ok header
      ∧ deserialize_length_prefixed header = .ok config := by
  refine ⟨toBytesBE4 (to_bytes config).length ++ to_bytes config, ?_, ?_⟩
  · unfold serialize_length_prefixed
    rw [if_pos h]
  · apply deserialize_serialize_length_prefixed
    unfold serialize_length_prefixed
    rw [if_pos h]

/-- Witness for C3 at the default configuration. -/
theorem C3_header_roundtrip_witness :
    (to_bytes {}).length < 4294967296
    ∧ ∃ header, serialize_length_prefixed {} = .ok header
        ∧ deserialize_length_prefixed header = .ok {} :=
  ⟨by decide, C3_header_roundtrip {} (by decide)⟩

/-- C4: whenever the header fits one frame and the serialized payload is
non-empty, the frame stream produced by `encode` has
`ceil(len(serialize(b)) / seg) + 1` frames, where `seg` is the effective
segment size `min(chunk_size ?? capacity, capacity)` and the per-level
capacities are L = 2953, M = 2331, Q = 1663, H = 1273. -/
theorem C4_chunk_count (serializer : Serializer) (b : List Nat)
    (cfg : QREncodingConfiguration)
    (hb : serializer.serialize b ≠ [])
    (hfit : header_fits serializer cfg = true) :
    Except.map List.length (pipeline_encode serializer b cfg)
      = .ok (((serializer.serialize b).length + effSeg cfg - 1) / effSeg cfg + 1)
    ∧ effSeg cfg = min (cfg.chunk_size.getD cfg.error_correction.to_max_bytes)
        cfg.error_correction.to_max_bytes
    ∧ QRErrorCorrectionLevel.to_max_bytes .L = 2953
    ∧ QRErrorCorrectionLevel.to_max_bytes .M = 2331
    ∧ QRErrorCorrectionLevel.to_max_bytes .Q = 1663
    ∧ QRErrorCorrectionLevel.to_max_bytes .H = 1273 := by
  obtain ⟨header, hhdr, hne, hle⟩ := header_fits_elim _ _ hfit
  refine ⟨?_, ?_, rfl, rfl, rfl, rfl⟩
  · rw [pipeline_encode_eq serializer b cfg header hhdr hne hle]
    simp [Except.map, chunksOf_length, numChunks]
  · cases h : cfg.chunk_size
    · simp [effSeg, h]
    · simp [effSeg, h]

/-- Witness for C4 at `b = [9]` and the default configuration. -/
theorem C4_chunk_count_witness :
    Base64Serializer.serialize [9] ≠ []
    ∧ header_fits Base64Serializer {} = true
    ∧ (Except.map List.length (pipeline_encode Base64Serializer [9] {})
        = .ok (((Base64Serializer.serialize [9]).length + effSeg {} - 1) / effSeg {} + 1)
      ∧ effSeg {} = min ((({} : QREncodingConfiguration).chunk_size).getD
          (({} : QREncodingConfiguration).error_correction.to_max_bytes))
          (({} : QREncodingConfiguration).error_correction.to_max_bytes)
      ∧ QRErrorCorrectionLevel.to_max_bytes .L = 2953
      ∧ QRErrorCorrectionLevel.to_max_bytes .M = 2331
      ∧ QRErrorCorrectionLevel.to_max_bytes .Q = 1663
      ∧ QRErrorCorrectionLevel.to_max_bytes .H = 1273) :=
  ⟨by decide, by decide, C4_chunk_count Base64Serializer [9] {} (by decide) (by decide)⟩

/-- C5: when the configured chunk size exceeds the capacity of the chosen
error-correction level, the effective segment size is the capacity, every
chunk cut by the default chunking path is within the capacity, and the
renderer's capacity branch is never taken (`generate_qr_images` succeeds on
every chunk). -/
theorem C5_capacity_admission (data : List Nat) (cfg : QREncodingConfiguration)
    (cs : Nat) (hcs : cfg.chunk_size = some cs)
    (hgt : cfg.error_correction.to_max_bytes < cs) :
    effSeg cfg = cfg.error_correction.to_max_bytes
    ∧ (∀ chunk ∈ chunksOf (effSeg cfg) data,
        chunk.length ≤ cfg.error_correction.to_max_bytes)
    ∧ generate_qr_images data cfg
        = .ok ((chunksOf (effSeg cfg) data).map fun chunk => { symbols := [chunk] }) := by
  have h1 : effSeg cfg = cfg.error_correction.to_max_bytes := by
    simp only [effSeg, hcs]
    omega
  refine ⟨h1, ?_, generate_qr_images_eq _ _ ?_⟩
  · intro chunk hch
    exact le_trans (chunksOf_le _ _ _ hch) (effSeg_le cfg)
  · rw [h1]
    exact (to_max_bytes_pos _).ne'

/-- Witness for C5 at `chunk_size = 3000` over the default level M. -/
theorem C5_capacity_admission_witness :
    ({ chunk_size := some 3000 } : QREncodingConfiguration).chunk_size = some 3000
    ∧ ({ chunk_size := some 3000 } : QREncodingConfiguration).error_correction.to_max_bytes < 3000
    ∧ (effSeg { chunk_size := some 3000 }
        = ({ chunk_size := some 3000 } : QREncodingConfiguration).error_correction.to_max_bytes
      ∧ (∀ chunk ∈ chunksOf (effSeg { chunk_size := some 3000 }) [7, 8],
          chunk.length ≤ ({ chunk_size := some 3000 } : QREncodingConfiguration).error_correction.to_max_bytes)
      ∧ generate_qr_images [7, 8] { chunk_size := some 3000 }
          = .ok ((chunksOf (effSeg { chunk_size := some 3000 }) [7, 8]).map
              fun chunk => { symbols := [chunk] })) :=
  ⟨rfl, by decide, C5_capacity_admission [7, 8] { chunk_size := some 3000 } 3000 rfl (by decide)⟩

/-- C6: for the empty payload, `encode` yields exactly one frame (the
header), but `decode` on that one-frame stream raises
`ValueError("No frames were supplied to the decoding function.")` from
`decode_frames_to_data`, so `run` returns an error `Result` instead of empty
bytes. -/
theorem C6_empty_payload_eval :
    Except.map List.length (pipeline_encode Base64Serializer [] {}) = .ok 1
    ∧ pipeline_run Base64Serializer validate_equals [] {} false
        = .ok ⟨none, some (.valueError
            "No frames were supplied to the decoding function.")⟩ :=
  ⟨rfl, rfl⟩

/-- C7 counterexample: a failure can escape the `Result` surface of `run` —
with `chunk_size = 2` the header needs several frames and
`PipelineValidationException` propagates out of `run` uncaught (the
`except ValueError` clause does not catch it). -/
theorem C7_escape_counterexample :
    pipeline_run Base64Serializer validate_equals [2, 3] { chunk_size := some 2 } false
      = .error (.pipelineValidation
          "The configuration header must be exactly one frame.") := by
  rfl

/-- C7 (amended): when the encode stage succeeds (the header fits one
frame), `run` always returns a `Result`: `Ok(output)` when decode succeeds
and the validation function accepts, and `Err` otherwise — in particular
`Err(ValidationFailed)` when `validation_fn(payload, output)` is false.
Failures of the encode stage itself escape as exceptions. -/
theorem C7_result_surface (vf : List Nat → List Nat → Bool) (b : List Nat)
    (cfg : QREncodingConfiguration) (mock : Bool)
    (hbytes : ∀ x ∈ b, x < 256)
    (hfit : header_fits Base64Serializer cfg = true) :
    (∃ r, pipeline_run Base64Serializer vf b cfg mock = .ok r)
    ∧ (b ≠ [] → vf b b = false →
        pipeline_run Base64Serializer vf b cfg mock
          = .ok ⟨none, some (.pipelineValidation
              "The decoded data does not match the encoded data. ")⟩) := by
  constructor
  · by_cases hb : b = []
    · subst hb
      exact ⟨_, pipeline_run_empty_payload vf cfg mock hfit⟩
    · rw [pipeline_run_encoded vf b cfg mock hb hbytes hfit]
      by_cases hv : vf b b
      · rw [if_pos hv]
        exact ⟨_, rfl⟩
      · rw [if_neg hv]
        exact ⟨_, rfl⟩
  · intro hb hv
    rw [pipeline_run_encoded vf b cfg mock hb hbytes hfit, if_neg (by simp [hv])]

/-- Witness for C7 with an always-false validation function at `b = [5]`. -/
theorem C7_result_surface_witness :
    (∀ x ∈ [5], x < 256)
    ∧ header_fits Base64Serializer {} = true
    ∧ (∃ r, pipeline_run Base64Serializer (fun i o => false) [5] {} false = .ok r)
    ∧ pipeline_run Base64Serializer (fun i o => false) [5] {} false
        = .ok ⟨none, some (.pipelineValidation
            "The decoded data does not match the encoded data. ")⟩ := by
  have h := C7_result_surface (fun i o => false) [5] {} false (by decide) (by decide)
  exact ⟨by decide, by decide, h.1, h.2 (by decide) rfl⟩

/-- C8: the length-prefixed header parser fails with a truncation
`ValueError` exactly when the input is shorter than the 4-byte prefix or
shorter than the prefix plus the announced blob length, and on any longer
input it parses the first 4 bytes as a big-endian unsigned length `N` and
decodes exactly the next `N` bytes. -/
theorem C8_header_truncation (data : List Nat) :
    ((deserialize_length_prefixed data
        = .error (.valueError "Header too short to contain full configuration length.")
      ∨ deserialize_length_prefixed data
        = .error (.valueError "Header too short to contain full configuration."))
      ↔ (data.length < CONFIGURATION_HEADER_LENGTH_BYTES
        ∨ data.length < CONFIGURATION_HEADER_LENGTH_BYTES
            + fromBytesBE (data.take CONFIGURATION_HEADER_LENGTH_BYTES)))
    ∧ (CONFIGURATION_HEADER_LENGTH_BYTES
          + fromBytesBE (data.take CONFIGURATION_HEADER_LENGTH_BYTES) ≤ data.length →
        deserialize_length_prefixed data
          = match from_bytes ((data.drop CONFIGURATION_HEADER_LENGTH_BYTES).take
              (fromBytesBE (data.take CONFIGURATION_HEADER_LENGTH_BYTES))) with
            | some config => .ok config
            | none => .error .unpicklingError) := by
  constructor
  · constructor
    · intro h
      by_contra hc
      push_neg at hc
      obtain ⟨h1, h2⟩ := hc
      unfold deserialize_length_prefixed at h
      rw [if_neg (by omega), if_neg (by omega)] at h
      rcases h with h | h
      · split at h
        · exact absurd h (by simp)
        · exact absurd h (by simp)
      · split at h
        · exact absurd h (by simp)
        · exact absurd h (by simp)
    · intro h
      unfold deserialize_length_prefixed
      rcases Nat.lt_or_ge data.length CONFIGURATION_HEADER_LENGTH_BYTES with h1 | h1
      · rw [if_pos h1]
        left
        rfl
      · have h2 : data.length < CONFIGURATION_HEADER_LENGTH_BYTES
            + fromBytesBE (data.take CONFIGURATION_HEADER_LENGTH_BYTES) := by
          rcases h with h | h
          · omega
          · exact h
        rw [if_neg (by omega), if_pos h2]
        right
        rfl
  · intro h
    unfold deserialize_length_prefixed
    rw [if_neg (by omega), if_neg (by omega)]

/-- Witness for C8 on the six-byte input `[0, 0, 0, 2, 9, 9]` announcing a
two-byte blob. -/
theorem C8_header_truncation_witness :
    deserialize_length_prefixed [0, 0, 0, 2, 9, 9]
      = match from_bytes (([0, 0, 0, 2, 9, 9].drop CONFIGURATION_HEADER_LENGTH_BYTES).take
          (fromBytesBE ([0, 0, 0, 2, 9, 9].take CONFIGURATION_HEADER_LENGTH_BYTES))) with
        | some config => .ok config
        | none => .error .unpicklingError :=
  (C8_header_truncation [0, 0, 0, 2, 9, 9]).2 (by decide)

/-- C9: both concrete serializers invert their own serialization on every
byte sequence: the identity serializer trivially, the base64 serializer by
the standard base64 round trip. -/
theorem C9_serializer_roundtrip (b : List Nat) (h : ∀ x ∈ b, x < 256) :
    IdentitySerializer.deserialize (IdentitySerializer.serialize b) = .ok b
    ∧ Base64Serializer.deserialize (Base64Serializer.serialize b) = .ok b :=
  ⟨rfl, b64decode_b64encode b h⟩

/-- Witness for C9 at the byte string `[0, 255, 77]`. -/
theorem C9_serializer_roundtrip_witness :
    (∀ x ∈ [0, 255, 77], x < 256)
    ∧ (IdentitySerializer.deserialize (IdentitySerializer.serialize [0, 255, 77])
        = .ok [0, 255, 77]
      ∧ Base64Serializer.deserialize (Base64Serializer.serialize [0, 255, 77])
        = .ok [0, 255, 77]) :=
  ⟨by decide, C9_serializer_roundtrip [0, 255, 77] (by decide)⟩

/-- C10: for a frame stream supplied directly, the bytes returned by
`decode` do not depend on the caller-supplied configuration argument; after
the header frame is parsed, only the recovered configuration drives the
payload stage. -/
theorem C10_decode_ignores_caller_config (serializer : Serializer)
    (o1 o2 : Option QREncodingConfiguration) (frames : List Frame) :
    pipeline_decode serializer o1 frames = pipeline_decode serializer o2 frames := rfl
